import Mathlib

/-!
Verification of the intake-flow Next.js repository's workflow-editor,
form-builder and middleware logic, shallowly embedded in Lean.

JavaScript strings are modelled as Lean `String` (or as `List Char` where
character-level regex/split semantics matter); React `useState` state is
modelled as explicit record passing, and each event handler becomes a
function from state to state.  `setTimeout` callbacks are modelled as a
second state-to-state function (the deferred phase of the handler).
-/

/-! ## Data model (src/app/dashboard/workflows/_components/WorkflowEditor.tsx) -/

/-- The `type` union of `WorkflowStep` in WorkflowEditor.tsx / WorkflowCanvas.tsx. -/
inductive StepType where
  | form | email | document | payment | calendar | condition | delay | webhook
deriving DecidableEq

/-- The string each `StepType` denotes in the TypeScript union (used by the
`New ${stepType} step` template literal in `addStep`). -/
def StepType.str : StepType → String
  | .form => "form"
  | .email => "email"
  | .document => "document"
  | .payment => "payment"
  | .calendar => "calendar"
  | .condition => "condition"
  | .delay => "delay"
  | .webhook => "webhook"

/-- `position: { x: number; y: number }` of a workflow step. -/
structure Position where
  x : Int
  y : Int
deriving DecidableEq

/-- `WorkflowStep` of WorkflowEditor.tsx.  `config: Record<string, any>` is
modelled as an association list; every config value occurring in the file is
a string. -/
structure WorkflowStep where
  id : String
  type : StepType
  name : String
  description : Option String
  config : List (String × String)
  position : Position
deriving DecidableEq

/-- One entry of `connections: Array<{ from: string; to: string }>`. -/
structure Connection where
  «from» : String
  «to» : String
deriving DecidableEq

/-- `status: "active" | "draft"` of a workflow. -/
inductive WStatus where
  | active | draft
deriving DecidableEq

/-- `WorkflowData` of WorkflowEditor.tsx. -/
structure WorkflowData where
  id : Option String
  name : String
  description : String
  status : WStatus
  steps : List WorkflowStep
  connections : List Connection
deriving DecidableEq

/-- `mockWorkflowData` of WorkflowEditor.tsx (lines 53-88), field for field. -/
def mockWorkflowData : WorkflowData where
  id := some "1"
  name := "Web Design Onboarding"
  description := "Complete client intake for web design projects"
  status := WStatus.active
  steps :=
    [ { id := "step-1", type := StepType.form, name := "Project Intake Form",
        description := some "Collect initial project requirements",
        config := [("formId", "intake-form-1")],
        position := { x := 100, y := 100 } },
      { id := "step-2", type := StepType.email, name := "Welcome Email",
        description := some "Send welcome email to client",
        config := [("templateId", "welcome-template")],
        position := { x := 300, y := 100 } },
      { id := "step-3", type := StepType.document, name := "Send Contract",
        description := some "Send contract for signature",
        config := [("documentId", "contract-template")],
        position := { x := 500, y := 100 } } ]
  connections :=
    [ { «from» := "step-1", «to» := "step-2" },
      { «from» := "step-2", «to» := "step-3" } ]

/-- The `mode` prop of `WorkflowEditor`. -/
inductive Mode where
  | create | edit
deriving DecidableEq

/-- The `useState` state of the `WorkflowEditor` component: `workflow`,
`selectedStep`, `isLoading`, `showStepLibrary`. -/
structure EditorState where
  workflow : WorkflowData
  selectedStep : Option String
  isLoading : Bool
  showStepLibrary : Bool
deriving DecidableEq

/-- The initial `useState` values of `WorkflowEditor`. -/
def initialEditorState : EditorState where
  workflow :=
    { id := none, name := "", description := "", status := WStatus.draft,
      steps := [], connections := [] }
  selectedStep := none
  isLoading := false
  showStepLibrary := false

/-- JavaScript truthiness of `workflowId : string | undefined` as tested by
`if (mode === "edit" && workflowId)`: `undefined` and `""` are falsy. -/
def workflowIdTruthy : Option String → Bool
  | none => false
  | some s => s ≠ ""

/-- The mount `useEffect` of `WorkflowEditor` (lines 105-110): when
`mode === "edit" && workflowId` it replaces the workflow state with
`mockWorkflowData`, otherwise it does nothing. -/
def loadEffect (mode : Mode) (workflowId : Option String) (s : EditorState) :
    EditorState :=
  if mode = Mode.edit ∧ workflowIdTruthy workflowId then
    { s with workflow := mockWorkflowData }
  else s

/-- `handleSave` before its timeout fires (line 113): sets `isLoading`. -/
def handleSaveStart (s : EditorState) : EditorState :=
  { s with isLoading := true }

/-- The `setTimeout` callback of `handleSave` (lines 115-118): it only logs
and clears `isLoading`. -/
def handleSaveTimeout (s : EditorState) : EditorState :=
  { s with isLoading := false }

/-- `handlePublish` before its timeout fires (lines 122-124): sets
`isLoading` and replaces the workflow by `{ ...workflow, status: "active" }`. -/
def handlePublishStart (s : EditorState) : EditorState :=
  { s with workflow := { s.workflow with status := WStatus.active },
           isLoading := true }

/-- The `setTimeout` callback of `handlePublish` (lines 126-129): it only
logs `updatedWorkflow` and clears `isLoading`. -/
def handlePublishTimeout (s : EditorState) : EditorState :=
  { s with isLoading := false }

/-- The workflow transformation performed by `handlePublish`:
`{ ...workflow, status: "active" }`. -/
def publishWorkflow (w : WorkflowData) : WorkflowData :=
  { w with status := WStatus.active }

/-! ## C1: loading in edit mode -/

/-- C1 (as frozen) is refuted at `workflowId = some ""`: the id is defined,
yet the mount effect leaves the initial (empty) workflow in place because
`workflowId` is falsy, so the loaded workflow is not `mockWorkflowData`. -/
theorem loadEffect_ignores_empty_workflowId :
    (loadEffect Mode.edit (some "") initialEditorState).workflow
      ≠ mockWorkflowData := by
  decide

/-- C1 (amended): for every NON-EMPTY defined `workflowId`, mounting in
"edit" mode sets the workflow state to the fixed `mockWorkflowData` —
name "Web Design Onboarding", status active, exactly the steps
step-1/step-2/step-3 and the connections step-1→step-2 and step-2→step-3 —
independent of the particular id and of the prior state. -/
theorem loadEffect_edit_loads_mock (s : EditorState) (workflowId : String)
    (h : workflowId ≠ "") :
    (loadEffect Mode.edit (some workflowId) s).workflow = mockWorkflowData
      ∧ mockWorkflowData.name = "Web Design Onboarding"
      ∧ mockWorkflowData.status = WStatus.active
      ∧ mockWorkflowData.steps.map WorkflowStep.id = ["step-1", "step-2", "step-3"]
      ∧ mockWorkflowData.connections =
          [{ «from» := "step-1", «to» := "step-2" },
           { «from» := "step-2", «to» := "step-3" }] := by
  refine ⟨?_, rfl, rfl, rfl, rfl⟩
  simp [loadEffect, workflowIdTruthy, h]

/-- Witness for C1: the amended theorem applied at workflowId "42". -/
theorem loadEffect_edit_loads_mock_witness :
    (loadEffect Mode.edit (some "42") initialEditorState).workflow
      = mockWorkflowData :=
  (loadEffect_edit_loads_mock initialEditorState "42" (by decide)).1

/-! ## C2: Save Draft changes nothing but isLoading -/

/-- C2: `handleSave` (the Save Draft action) leaves the workflow — name,
description, status, steps, connections — and the rest of the editor state
unchanged through both of its phases; the only transition is `isLoading`
going true (synchronously) and back to false (in the timeout callback). -/
theorem handleSave_frame (s : EditorState) :
    (handleSaveStart s).workflow = s.workflow
      ∧ (handleSaveTimeout (handleSaveStart s)).workflow = s.workflow
      ∧ (handleSaveStart s).selectedStep = s.selectedStep
      ∧ (handleSaveStart s).showStepLibrary = s.showStepLibrary
      ∧ (handleSaveTimeout (handleSaveStart s)).selectedStep = s.selectedStep
      ∧ (handleSaveTimeout (handleSaveStart s)).showStepLibrary = s.showStepLibrary
      ∧ (handleSaveStart s).isLoading = true
      ∧ (handleSaveTimeout (handleSaveStart s)).isLoading = false :=
  ⟨rfl, rfl, rfl, rfl, rfl, rfl, rfl, rfl⟩

/-! ## C3: Publish sets status active and nothing else -/

/-- C3: `handlePublish` sets the workflow status to active and changes no
other workflow field through either phase (the timeout callback only logs),
and the induced workflow transformation is idempotent: publishing an
already-active workflow leaves it equal to itself. -/
theorem handlePublish_sets_active_only (s : EditorState) (w : WorkflowData)
    (hw : w.status = WStatus.active) :
    (handlePublishTimeout (handlePublishStart s)).workflow.status = WStatus.active
      ∧ (handlePublishTimeout (handlePublishStart s)).workflow.name = s.workflow.name
      ∧ (handlePublishTimeout (handlePublishStart s)).workflow.description
          = s.workflow.description
      ∧ (handlePublishTimeout (handlePublishStart s)).workflow.steps = s.workflow.steps
      ∧ (handlePublishTimeout (handlePublishStart s)).workflow.connections
          = s.workflow.connections
      ∧ (handlePublishTimeout (handlePublishStart s)).workflow.id = s.workflow.id
      ∧ (handlePublishStart s).workflow = publishWorkflow s.workflow
      ∧ publishWorkflow (publishWorkflow s.workflow) = publishWorkflow s.workflow
      ∧ publishWorkflow w = w := by
  refine ⟨rfl, rfl, rfl, rfl, rfl, rfl, rfl, rfl, ?_⟩
  cases w
  simp [publishWorkflow] at hw ⊢
  exact hw.symm

/-- Witness for C3: the theorem applied at the initial editor state and the
(active) mock workflow. -/
theorem handlePublish_sets_active_only_witness :
    (handlePublishTimeout (handlePublishStart initialEditorState)).workflow.status
        = WStatus.active
      ∧ publishWorkflow mockWorkflowData = mockWorkflowData :=
  ⟨(handlePublish_sets_active_only initialEditorState mockWorkflowData rfl).1,
   (handlePublish_sets_active_only initialEditorState mockWorkflowData rfl).2.2.2.2.2.2.2.2⟩

/-! ## C4: canvas drag handlers (WorkflowCanvas.tsx) -/

/-- The `useState` state of `WorkflowCanvas` together with the `workflow`
prop it renders: the component's only own state is `draggedStep`. -/
structure CanvasState where
  workflow : WorkflowData
  draggedStep : Option String
deriving DecidableEq

/-- A call to one of the parent callbacks (`onUpdateStep`, `onDeleteStep`,
`onSelectStep`) that `WorkflowCanvas` receives as props. -/
inductive ParentCall where
  | updateStep (stepId : String)
  | deleteStep (stepId : String)
  | selectStep (stepId : Option String)
deriving DecidableEq

/-- A drag event delivered to a step card: `onDragStart` with the step's id,
or `onDragEnd`. -/
inductive DragEvent where
  | dragStart (stepId : String)
  | dragEnd
deriving DecidableEq

/-- `handleDragStart` (WorkflowCanvas.tsx lines 107-109): its body is only
`setDraggedStep(stepId)`, so it emits no parent calls. -/
def handleDragStart (stepId : String) (c : CanvasState) :
    CanvasState × List ParentCall :=
  ({ c with draggedStep := some stepId }, [])

/-- `handleDragEnd` (WorkflowCanvas.tsx lines 111-113): its body is only
`setDraggedStep(null)`, so it emits no parent calls. -/
def handleDragEnd (c : CanvasState) : CanvasState × List ParentCall :=
  ({ c with draggedStep := none }, [])

/-- Dispatch of one drag event to its handler. -/
def applyDragEvent (c : CanvasState) : DragEvent → CanvasState × List ParentCall
  | .dragStart stepId => handleDragStart stepId c
  | .dragEnd => handleDragEnd c

/-- Run a sequence of drag events, accumulating every parent call emitted. -/
def runDragEvents (c : CanvasState) (events : List DragEvent) :
    CanvasState × List ParentCall :=
  events.foldl (fun acc e =>
    ((applyDragEvent acc.1 e).1, acc.2 ++ (applyDragEvent acc.1 e).2)) (c, [])

/-- C4: over any interleaving of drag events, the drag handlers never invoke
`onUpdateStep` or `onDeleteStep` (no parent call at all is emitted), the
workflow — hence every step's position — is unchanged, and `handleDragEnd`
resets the `draggedStep` marker to null. -/
theorem dragHandlers_frame (c : CanvasState) (events : List DragEvent) :
    (runDragEvents c events).2 = []
      ∧ (runDragEvents c events).1.workflow = c.workflow
      ∧ (runDragEvents c events).1.workflow.steps.map WorkflowStep.position
          = c.workflow.steps.map WorkflowStep.position
      ∧ (handleDragEnd (runDragEvents c events).1).1.draggedStep = none := by
  have key : ∀ (es : List DragEvent) (st : CanvasState) (acc : List ParentCall),
      (es.foldl (fun acc e =>
        ((applyDragEvent acc.1 e).1, acc.2 ++ (applyDragEvent acc.1 e).2)) (st, acc))
          = ((es.foldl (fun s e => (applyDragEvent s e).1) st), acc) := by
    intro es
    induction es with
    | nil => intro st acc; rfl
    | cons e es ih =>
      intro st acc
      cases e with
      | dragStart stepId =>
        simpa [applyDragEvent, handleDragStart] using
          ih { st with draggedStep := some stepId } acc
      | dragEnd =>
        simpa [applyDragEvent, handleDragEnd] using
          ih { st with draggedStep := none } acc
  have wf : ∀ (es : List DragEvent) (st : CanvasState),
      (es.foldl (fun s e => (applyDragEvent s e).1) st).workflow = st.workflow := by
    intro es
    induction es with
    | nil => intro st; rfl
    | cons e es ih =>
      intro st
      cases e with
      | dragStart stepId => exact ih { st with draggedStep := some stepId }
      | dragEnd => exact ih { st with draggedStep := none }
  refine ⟨?_, ?_, ?_, rfl⟩
  · simp [runDragEvents, key]
  · simp [runDragEvents, key, wf]
  · simp [runDragEvents, key, wf]

/-! ## C6: deleteStep / addStep and the connection-validity invariant -/

/-- `deleteStep` of WorkflowEditor.tsx (lines 161-172): filters out the step
with the given id and every connection whose `from` or `to` is that id, and
clears the selection when the deleted step was selected. -/
def deleteStep (stepId : String) (s : EditorState) : EditorState :=
  { s with
    workflow := { s.workflow with
      steps := s.workflow.steps.filter (fun st => st.id != stepId),
      connections := s.workflow.connections.filter
        (fun c => c.«from» != stepId && c.«to» != stepId) },
    selectedStep := if s.selectedStep = some stepId then none
                    else s.selectedStep }

/-- `addStep` of WorkflowEditor.tsx (lines 132-150).  `Date.now()` is passed
in as the parameter `now`; the new step's id is `step-${now}` and its name
`New ${stepType} step`, its position is derived from the current step count,
and no connection is added. -/
def addStep (stepType : StepType) (now : Nat) (s : EditorState) : EditorState :=
  let newStep : WorkflowStep :=
    { id := "step-" ++ toString now,
      type := stepType,
      name := "New " ++ stepType.str ++ " step",
      description := none,
      config := [],
      position := { x := 200 + (s.workflow.steps.length : Int) * 50,
                    y := 200 + (s.workflow.steps.length : Int) * 50 } }
  { s with
    workflow := { s.workflow with steps := s.workflow.steps ++ [newStep] },
    selectedStep := some newStep.id,
    showStepLibrary := false }

/-- Every connection of the workflow references existing steps through both
its `from` and its `to` field. -/
def connectionsValid (w : WorkflowData) : Prop :=
  ∀ c ∈ w.connections,
    (∃ st ∈ w.steps, st.id = c.«from») ∧ (∃ st ∈ w.steps, st.id = c.«to»)

instance (w : WorkflowData) : Decidable (connectionsValid w) := by
  unfold connectionsValid
  infer_instance

/-- C6: when every connection references existing steps, `deleteStep stepId`
keeps exactly the steps whose id differs from `stepId` and exactly the
connections touching neither end to `stepId`, preserves the invariant that
every remaining connection references existing steps, and clears the
selection when the deleted step was selected; `addStep` also preserves the
invariant since it appends a step and no connections. -/
theorem deleteStep_exact_preserves_valid (s : EditorState) (stepId : String)
    (hv : connectionsValid s.workflow) :
    (∀ st, st ∈ (deleteStep stepId s).workflow.steps ↔
        st ∈ s.workflow.steps ∧ st.id ≠ stepId)
      ∧ (∀ c, c ∈ (deleteStep stepId s).workflow.connections ↔
          c ∈ s.workflow.connections ∧ c.«from» ≠ stepId ∧ c.«to» ≠ stepId)
      ∧ connectionsValid (deleteStep stepId s).workflow
      ∧ (s.selectedStep = some stepId → (deleteStep stepId s).selectedStep = none)
      ∧ (∀ ty now, connectionsValid (addStep ty now s).workflow) := by
  have hsteps : ∀ st, st ∈ (deleteStep stepId s).workflow.steps ↔
      st ∈ s.workflow.steps ∧ st.id ≠ stepId := by
    intro st
    simp [deleteStep, List.mem_filter]
  have hconns : ∀ c, c ∈ (deleteStep stepId s).workflow.connections ↔
      c ∈ s.workflow.connections ∧ c.«from» ≠ stepId ∧ c.«to» ≠ stepId := by
    intro c
    simp [deleteStep, List.mem_filter]
  refine ⟨hsteps, hconns, ?_, ?_, ?_⟩
  · intro c hc
    obtain ⟨hmem, hfrom, hto⟩ := (hconns c).1 hc
    obtain ⟨⟨sf, hsf, hsfid⟩, ⟨st, hst, hstid⟩⟩ := hv c hmem
    constructor
    · exact ⟨sf, (hsteps sf).2 ⟨hsf, by simpa [hsfid] using hfrom⟩, hsfid⟩
    · exact ⟨st, (hsteps st).2 ⟨hst, by simpa [hstid] using hto⟩, hstid⟩
  · intro h
    simp [deleteStep, h]
  · intro ty now c hc
    have hmem : c ∈ s.workflow.connections := by
      simpa [addStep] using hc
    obtain ⟨⟨sf, hsf, hsfid⟩, ⟨st, hst, hstid⟩⟩ := hv c hmem
    constructor
    · exact ⟨sf, by simp [addStep]; exact Or.inl hsf, hsfid⟩
    · exact ⟨st, by simp [addStep]; exact Or.inl hst, hstid⟩

/-- Witness for C6: the theorem applied at the mock workflow (whose
connections are valid) deleting "step-2". -/
theorem deleteStep_exact_preserves_valid_witness :
    connectionsValid
      (deleteStep "step-2"
        { initialEditorState with workflow := mockWorkflowData }).workflow :=
  (deleteStep_exact_preserves_valid
    { initialEditorState with workflow := mockWorkflowData } "step-2"
    (by decide)).2.2.1

/-! ## C7: StepConfigPanel Save Changes vs Cancel -/

/-- The `onClick` of the "Save Changes" button in StepConfigPanel (line 786):
it is the `onClose` callback itself. -/
def saveChangesClick (onClose : EditorState → EditorState) :
    EditorState → EditorState :=
  onClose

/-- The `onClick` of the "Cancel" button in StepConfigPanel (line 789): it
too is the `onClose` callback itself. -/
def cancelClick (onClose : EditorState → EditorState) :
    EditorState → EditorState :=
  onClose

/-- The `onClose` the editor passes to `StepConfigPanel` (WorkflowEditor.tsx
line 361): `() => setSelectedStep(null)`. -/
def editorPanelClose (s : EditorState) : EditorState :=
  { s with selectedStep := none }

/-- C7: "Save Changes" and "Cancel" are the identical operation — both are
exactly `onClose` — and with the editor's `onClose` the only state change is
the selection becoming null: the workflow (hence every live edit already
applied through `onUpdateStep`) is untouched. -/
theorem saveChanges_eq_cancel :
    (∀ onClose : EditorState → EditorState,
        saveChangesClick onClose = cancelClick onClose)
      ∧ (∀ s : EditorState,
          (saveChangesClick editorPanelClose s).workflow = s.workflow
            ∧ (saveChangesClick editorPanelClose s).isLoading = s.isLoading
            ∧ (saveChangesClick editorPanelClose s).showStepLibrary
                = s.showStepLibrary
            ∧ (saveChangesClick editorPanelClose s).selectedStep = none) :=
  ⟨fun _ => rfl, fun _ => ⟨rfl, rfl, rfl, rfl⟩⟩

/-! ## Form builder (src/components/FormPage.tsx) -/

/-- The `type` union of `FormField` in FormPage.tsx. -/
inductive FieldType where
  | text | email | phone | textarea | select | date | file | number
deriving DecidableEq

/-- `FormField` of FormPage.tsx. -/
structure FormField where
  id : String
  type : FieldType
  label : String
  placeholder : Option String
  required : Bool
  options : Option (List String)
deriving DecidableEq

/-- The initial `formTitle` state of `FormPage` (line 47). -/
def initialFormTitle : String := ""

/-- The initial `formDescription` state of `FormPage` (line 48). -/
def initialFormDescription : String := ""

/-- The initial `fields` state of `FormPage` (lines 49-64), field for field. -/
def initialFields : List FormField :=
  [ { id := "1", type := FieldType.text, label := "Full Name",
      placeholder := some "Enter your full name", required := true,
      options := none },
    { id := "2", type := FieldType.email, label := "Email Address",
      placeholder := some "your@email.com", required := true,
      options := none } ]

/-- C8: every `FormPage` starts from the same fixed state — empty title,
empty description, and exactly a required text field id "1" labelled
"Full Name" followed by a required email field id "2" labelled
"Email Address". `FormPage` takes no props, so these closed constants are
the initial state regardless of route or external input. -/
theorem formPage_initial_state :
    initialFormTitle = ""
      ∧ initialFormDescription = ""
      ∧ initialFields.length = 2
      ∧ initialFields.map (fun f => (f.id, f.type, f.label, f.required))
          = [("1", FieldType.text, "Full Name", true),
             ("2", FieldType.email, "Email Address", true)] := by
  refine ⟨rfl, rfl, rfl, rfl⟩

/-! ## C9: select-field options round-trip (FormPage.tsx lines 203-218)

The textarea serializes `field.options` with `options?.join("\n")` and the
change handler parses back with `value.split("\n").filter(Boolean)`.
JavaScript strings are modelled as `List Char`. -/

/-- JavaScript `Array.prototype.join("\n")`: empty array gives "", singleton
gives the element, otherwise elements interleaved with the separator. -/
def joinNl : List (List Char) → List Char
  | [] => []
  | [x] => x
  | x :: y :: rest => x ++ '\n' :: joinNl (y :: rest)

/-- Extend the first piece of a split result by one character (the
no-separator branch of `split`). -/
def consHead (c : Char) : List (List Char) → List (List Char)
  | [] => [[c]]
  | p :: ps => (c :: p) :: ps

/-- JavaScript `String.prototype.split("\n")`: splits on every newline and
keeps empty pieces; `"".split("\n")` is `[""]`. -/
def splitNl : List Char → List (List Char)
  | [] => [[]]
  | c :: rest =>
      if c = '\n' then [] :: splitNl rest else consHead c (splitNl rest)

/-- The parse in `updateField`'s options handler:
`value.split("\n").filter(Boolean)` — `filter(Boolean)` drops the empty
strings. -/
def parseOptions (value : List Char) : List (List Char) :=
  (splitNl value).filter (fun x => x ≠ [])

/-- No piece produced by `splitNl` contains a newline. -/
theorem splitNl_no_newline (s : List Char) :
    ∀ x ∈ splitNl s, '\n' ∉ x := by
  induction s with
  | nil =>
    intro x hx
    have hx2 : x = [] := by simpa [splitNl] using hx
    simp [hx2]
  | cons c rest ih =>
    intro x hx
    by_cases hc : c = '\n'
    · rw [splitNl, if_pos hc, List.mem_cons] at hx
      rcases hx with hx | hx
      · simp [hx]
      · exact ih x hx
    · rw [splitNl, if_neg hc] at hx
      rcases hsplit : splitNl rest with - | ⟨p, ps⟩
      · rw [hsplit] at hx
        have hx2 : x = [c] := by simpa [consHead] using hx
        simp only [hx2, List.mem_singleton]
        intro h
        exact hc h.symm
      · rw [hsplit] at hx
        rw [consHead, List.mem_cons] at hx
        rcases hx with hx | hx
        · have hp : '\n' ∉ p := ih p (by rw [hsplit]; exact List.mem_cons_self p ps)
          simp only [hx, List.mem_cons]
          rintro (h | h)
          · exact hc h.symm
          · exact hp h
        · exact ih x (by rw [hsplit]; exact List.mem_cons_of_mem p hx)

/-- Splitting a newline-free string yields that single piece. -/
theorem splitNl_of_no_newline (x : List Char) (hx : '\n' ∉ x) :
    splitNl x = [x] := by
  induction x with
  | nil => rfl
  | cons c cs ih =>
    have hc : c ≠ '\n' := fun h => hx (by simp [h])
    have hcs : '\n' ∉ cs := fun h => hx (List.mem_cons_of_mem c h)
    rw [splitNl, if_neg hc, ih hcs]
    rfl

/-- Splitting a string that starts with a newline-free piece followed by a
newline peels off exactly that piece. -/
theorem splitNl_append (x t : List Char) (hx : '\n' ∉ x) :
    splitNl (x ++ '\n' :: t) = x :: splitNl t := by
  induction x with
  | nil => simp [splitNl]
  | cons c cs ih =>
    have hc : c ≠ '\n' := fun h => hx (by simp [h])
    have hcs : '\n' ∉ cs := fun h => hx (List.mem_cons_of_mem c h)
    rw [List.cons_append, splitNl, if_neg hc, ih hcs]
    rfl

/-- C9 (amended): serializing a select field's options as the newline-joined
textarea value and parsing back with split-on-newline plus dropping empty
strings is the identity on lists whose options are non-empty AND
newline-free; for a list containing an empty option or an option with an
embedded newline the round-trip never holds; and a parsed options list never
contains an empty string. -/
theorem options_roundtrip (l : List (List Char))
    (h : ∀ x ∈ l, x ≠ [] ∧ '\n' ∉ x) :
    parseOptions (joinNl l) = l
      ∧ (∀ m : List (List Char), (∃ x ∈ m, x = [] ∨ '\n' ∈ x) →
          parseOptions (joinNl m) ≠ m)
      ∧ (∀ v : List Char, [] ∉ parseOptions v) := by
  have hparse : ∀ v : List Char, ∀ x ∈ parseOptions v, x ≠ [] ∧ '\n' ∉ x := by
    intro v x hx
    rw [parseOptions, List.mem_filter] at hx
    exact ⟨by simpa using hx.2, splitNl_no_newline v x hx.1⟩
  refine ⟨?_, ?_, ?_⟩
  · induction l with
    | nil => rfl
    | cons x rest ih =>
      obtain ⟨hxne, hxnl⟩ := h x (List.mem_cons_self x rest)
      have hrest : ∀ y ∈ rest, y ≠ [] ∧ '\n' ∉ y :=
        fun y hy => h y (List.mem_cons_of_mem x hy)
      cases rest with
      | nil =>
        rw [joinNl, parseOptions, splitNl_of_no_newline x hxnl]
        simp [hxne]
      | cons y rest2 =>
        rw [joinNl, parseOptions, splitNl_append x (joinNl (y :: rest2)) hxnl,
          List.filter_cons_of_pos (by simpa using hxne)]
        have := ih hrest
        rw [parseOptions] at this
        rw [this]
  · intro m hm hmeq
    obtain ⟨x, hxm, hbad⟩ := hm
    have hxp : x ∈ parseOptions (joinNl m) := by rw [hmeq]; exact hxm
    have := hparse (joinNl m) x hxp
    rcases hbad with hbad | hbad
    · exact this.1 hbad
    · exact this.2 hbad
  · intro v hv
    exact (hparse v [] hv).1 rfl

/-- C9 as frozen is refuted by the singleton list holding the non-empty
option "a\nb": no element is empty, yet the round-trip returns two options
"a" and "b" instead of the original list. -/
theorem options_roundtrip_counterexample :
    (['a', '\n', 'b'] : List Char) ≠ []
      ∧ parseOptions (joinNl [['a', '\n', 'b']]) ≠ [['a', '\n', 'b']] := by
  decide

/-- Witness for C9: the amended round-trip applied to the concrete list
["a", "b"] (non-empty, newline-free), and the failure parts applied to
[""]. -/
theorem options_roundtrip_witness :
    parseOptions (joinNl [['a'], ['b']]) = [['a'], ['b']]
      ∧ parseOptions (joinNl [[]]) ≠ [[]] :=
  ⟨(options_roundtrip [['a'], ['b']] (by decide)).1,
   (options_roundtrip [['a'], ['b']] (by decide)).2.1 [[]] (by decide)⟩

/-! ## C5: the Next.js middleware matcher (src/middleware.ts)

The matcher is the single pattern
`"/((?!api|_next/static|_next/image|favicon.ico|$).*)"`.  Its group is a
regular expression: a negative lookahead over the four alternatives and
end-of-input, then `.*`.  Request paths are modelled as `List Char`; the
regex is modelled with its standard (case-sensitive) semantics, in which
the unescaped `.` of `favicon.ico` matches any character except a newline,
and `.*` likewise consumes only newline-free text. -/

/-- Bool test that `p` is a leading piece of `r` (character-wise). -/
def leadsWith : List Char → List Char → Bool
  | [], _ => true
  | _ :: _, [] => false
  | p :: ps, c :: cs => if p = c then leadsWith ps cs else false

/-- The alternative `favicon.ico` of the lookahead, with its unescaped `.`:
"favicon", then any character except a newline, then "ico". -/
def faviconDotIco (r : List Char) : Bool :=
  leadsWith ['f', 'a', 'v', 'i', 'c', 'o', 'n'] r &&
    match r.drop 7 with
    | [] => false
    | c :: cs => (c != '\n') && leadsWith ['i', 'c', 'o'] cs

/-- The compiled matcher of `config.matcher`: the path must be `/` followed
by a remainder at which the lookahead `(?!api|_next/static|_next/image|
favicon.ico|$)` succeeds — the remainder neither starts with one of the
alternatives nor is empty — and which `.*` consumes (no newline). -/
def nextMatcherAccepts : List Char → Bool
  | [] => false
  | c :: rest =>
      decide (c = '/'
        ∧ ¬(leadsWith ['a', 'p', 'i'] rest = true
            ∨ leadsWith ['_', 'n', 'e', 'x', 't', '/', 's', 't', 'a', 't', 'i', 'c'] rest = true
            ∨ leadsWith ['_', 'n', 'e', 'x', 't', '/', 'i', 'm', 'a', 'g', 'e'] rest = true
            ∨ faviconDotIco rest = true
            ∨ rest = [])
        ∧ ∀ ch ∈ rest, ch ≠ '\n')

/-- C5's predicate in the claim's words: the middleware applies iff the path
is not the root `/` and the part after the leading slash does not begin with
the literal strings "api", "_next/static", "_next/image" or "favicon.ico". -/
def claimProtected (p : List Char) : Bool :=
  decide (p ≠ ['/']
    ∧ ¬(leadsWith ['a', 'p', 'i'] (p.drop 1) = true
        ∨ leadsWith ['_', 'n', 'e', 'x', 't', '/', 's', 't', 'a', 't', 'i', 'c'] (p.drop 1) = true
        ∨ leadsWith ['_', 'n', 'e', 'x', 't', '/', 'i', 'm', 'a', 'g', 'e'] (p.drop 1) = true
        ∨ leadsWith ['f', 'a', 'v', 'i', 'c', 'o', 'n', '.', 'i', 'c', 'o'] (p.drop 1) = true))

/-- The claim's predicate amended at its only divergence from the matcher:
the "favicon.ico" comparison is the regex piece `favicon.ico`, whose
unescaped dot matches any (non-newline) character. -/
def claimProtectedAmended (p : List Char) : Bool :=
  decide (p ≠ ['/']
    ∧ ¬(leadsWith ['a', 'p', 'i'] (p.drop 1) = true
        ∨ leadsWith ['_', 'n', 'e', 'x', 't', '/', 's', 't', 'a', 't', 'i', 'c'] (p.drop 1) = true
        ∨ leadsWith ['_', 'n', 'e', 'x', 't', '/', 'i', 'm', 'a', 'g', 'e'] (p.drop 1) = true
        ∨ faviconDotIco (p.drop 1) = true))

/-- C5 as frozen is refuted at the path "/faviconzico": its first segment
begins with none of the four literal strings, so the claim calls it
protected, yet the matcher rejects it — the unescaped `.` of `favicon.ico`
matches the 'z' — so the middleware never runs on it. -/
theorem matcher_counterexample :
    claimProtected
        ['/', 'f', 'a', 'v', 'i', 'c', 'o', 'n', 'z', 'i', 'c', 'o'] = true
      ∧ nextMatcherAccepts
          ['/', 'f', 'a', 'v', 'i', 'c', 'o', 'n', 'z', 'i', 'c', 'o'] = false := by
  decide

/-- C5 (amended): on every newline-free request path starting with `/`, the
matcher applies the middleware exactly when the path is not the root `/` and
the remainder after the slash does not begin with "api", "_next/static",
"_next/image", or "favicon" followed by any character and "ico" (the
`favicon.ico` regex piece).  In particular `/`, `/api/...`,
`/_next/static/...`, `/_next/image/...` and `/favicon.ico` are exempt. -/
theorem matcher_eq_claim_amended (rest : List Char)
    (hnl : ∀ ch ∈ rest, ch ≠ '\n') :
    nextMatcherAccepts ('/' :: rest) = claimProtectedAmended ('/' :: rest) := by
  have hdrop : ('/' :: rest).drop 1 = rest := rfl
  rw [nextMatcherAccepts, claimProtectedAmended, hdrop, decide_eq_decide]
  constructor
  · rintro ⟨-, h2, -⟩
    constructor
    · intro h
      injection h with hhead hrest
      exact h2 (Or.inr (Or.inr (Or.inr (Or.inr hrest))))
    · intro h
      rcases h with h | h | h | h
      · exact h2 (Or.inl h)
      · exact h2 (Or.inr (Or.inl h))
      · exact h2 (Or.inr (Or.inr (Or.inl h)))
      · exact h2 (Or.inr (Or.inr (Or.inr (Or.inl h))))
  · rintro ⟨g1, g2⟩
    refine ⟨rfl, ?_, hnl⟩
    intro h
    rcases h with h | h | h | h | h
    · exact g2 (Or.inl h)
    · exact g2 (Or.inr (Or.inl h))
    · exact g2 (Or.inr (Or.inr (Or.inl h)))
    · exact g2 (Or.inr (Or.inr (Or.inr h)))
    · exact g1 (by rw [h])

/-- Witness for C5: the amended equivalence evaluated at the protected path
"/dashboard" and (through a second application of the theorem) agreement at
the exempt path "/api/x". -/
theorem matcher_eq_claim_amended_witness :
    nextMatcherAccepts ['/', 'd', 'a', 's', 'h', 'b', 'o', 'a', 'r', 'd']
        = claimProtectedAmended ['/', 'd', 'a', 's', 'h', 'b', 'o', 'a', 'r', 'd']
      ∧ nextMatcherAccepts ['/', 'a', 'p', 'i', '/', 'x']
          = claimProtectedAmended ['/', 'a', 'p', 'i', '/', 'x'] :=
  ⟨matcher_eq_claim_amended ['d', 'a', 's', 'h', 'b', 'o', 'a', 'r', 'd'] (by decide),
   matcher_eq_claim_amended ['a', 'p', 'i', '/', 'x'] (by decide)⟩
